import Mathlib

/-!
Verification of the evm-lite state coordinator (`src/state/state.go`).

The coordinator (`State`) owns three state instances — the committed
`ethState`, the write-ahead state (`was`) and the transaction pool
(`txPool`) — on top of a durable key-value store, and orchestrates
initialisation, commit/reset, read-only calls, ordered transaction
application, genesis account seeding and durable lookups.

The go-ethereum library (StateDB, EVM, RLP codec) and the repository
files not present under `src/` (WriteAheadState, TxPool) are modelled
at their interface boundary: an `Env` record supplies their behaviour
as unconstrained functions, and the data they manage is carried in
explicit records.  Everything the coordinator itself does is translated
line by line from `state.go`.
-/

set_option autoImplicit false

namespace EvmLite

/-- Model of `common.Hash` (a 256-bit digest), represented as its numeric value. -/
abbrev Hash := Nat

/-- Model of `common.Address` (a 160-bit identifier), represented as its numeric value. -/
abbrev Address := Nat

/-- Byte sequences (`[]byte`); each entry is a byte value `< 256`. -/
abbrev Bytes := List Nat

/-- Errors surfaced by the coordinator and its collaborators
(`error` values in the Go code). -/
inductive Err where
  /-- the durable store has no entry for the requested key -/
  | notFound
  /-- a read or write of the durable store failed -/
  | ioError
  /-- malformed serialized bytes (RLP decoding failure) -/
  | decodeError
  /-- message execution failed -/
  | execError
  /-- any other error, tagged by a number -/
  | other (n : Nat)
  deriving DecidableEq, Repr

/-- Constant `rootKey = []byte("root")` from `state.go` (ASCII codes). -/
def rootKey : Bytes := [114, 111, 111, 116]

/-- Constant `receiptsPrefix = []byte("receipts-")` from `state.go` (ASCII codes). -/
def receiptsPrefix : Bytes := [114, 101, 99, 101, 105, 112, 116, 115, 45]

/-- The durable key-value store (`ethdb.Database`).  `entries` are the
present key/value pairs; `failing` are keys on which the backing store's
read fails with an I/O error. -/
structure Store where
  entries : List (Bytes × Bytes)
  failing : List Bytes
  deriving DecidableEq, Repr

/-- Value stored under a key, if present. -/
def Store.lookup (st : Store) (k : Bytes) : Option Bytes :=
  (st.entries.find? (fun e => e.1 = k)).map (fun e => e.2)

/-- Go's `db.Get(key)`, Go style: the data together with an optional error.
A failing backend read yields an I/O error; an absent key yields a
not-found error (as the LevelDB backend does); both return empty data. -/
def Store.get (st : Store) (k : Bytes) : Bytes × Option Err :=
  if k ∈ st.failing then ([], some Err.ioError)
  else
    match st.lookup k with
    | some v => (v, none)
    | none => ([], some Err.notFound)

/-- Model of `common.BytesToHash`: the hash whose big-endian bytes are the last
32 bytes of `b` (left-padded with zeros), as a numeric value. -/
def bytesToHash (b : Bytes) : Hash :=
  (b.foldl (fun a x => a * 256 + x) 0) % 2 ^ 256

/-- Model of `hash.Bytes()`: the 32 big-endian bytes of a hash. -/
def hashToBytes (h : Hash) : Bytes :=
  (List.range 32).map (fun i => h / 256 ^ (31 - i) % 256)

/-- One account of the ledger state: balance, nonce, code and storage. -/
structure Account where
  balance : Int
  nonce : Nat
  code : Bytes
  storage : List (Hash × Hash)
  deriving DecidableEq, Repr

/-- The empty account implicitly denoted by an absent entry. -/
def Account.empty : Account := ⟨0, 0, [], []⟩

/-- First value under a key in an association list, if any. -/
def assocFind {α β : Type} [DecidableEq α] (k : α) :
    List (α × β) → Option β
  | [] => none
  | e :: rest => if e.1 = k then some e.2 else assocFind k rest

/-- Replace the first entry under a key in an association list by `f` of
its value, appending `f dflt` when the key is absent. -/
def assocUpdate {α β : Type} [DecidableEq α] (k : α) (f : β → β) (dflt : β) :
    List (α × β) → List (α × β)
  | [] => [(k, f dflt)]
  | e :: rest =>
      if e.1 = k then (e.1, f e.2) :: rest else e :: assocUpdate k f dflt rest

/-- A go-ethereum `state.StateDB` at the interface boundary: the root it
was opened at and the accounts reachable from that root (as later
modified in place). -/
structure EthStateDB where
  root : Hash
  accounts : List (Address × Account)
  deriving DecidableEq, Repr

/-- Account under an address, the empty account when absent. -/
def EthStateDB.account (st : EthStateDB) (a : Address) : Account :=
  (assocFind a st.accounts).getD Account.empty

/-- Model of `StateDB.GetBalance`: 0 for absent accounts. -/
def EthStateDB.getBalance (st : EthStateDB) (a : Address) : Int :=
  (st.account a).balance

/-- Model of `StateDB.GetNonce`: 0 for absent accounts. -/
def EthStateDB.getNonce (st : EthStateDB) (a : Address) : Nat :=
  (st.account a).nonce

/-- Model of `StateDB.GetCode`. -/
def EthStateDB.getCode (st : EthStateDB) (a : Address) : Bytes :=
  (st.account a).code

/-- Model of `StateDB.GetState`: the stored word under a storage key, 0 if unset. -/
def EthStateDB.getState (st : EthStateDB) (a : Address) (k : Hash) : Hash :=
  (assocFind k (st.account a).storage).getD 0

/-- Replace (or create) the account under `a` by `f` of its current
value. -/
def EthStateDB.update (st : EthStateDB) (a : Address) (f : Account → Account) :
    EthStateDB :=
  { st with accounts := assocUpdate a f Account.empty st.accounts }

/-- Model of `StateDB.AddBalance` (creates the account when absent). -/
def EthStateDB.addBalance (st : EthStateDB) (a : Address) (amt : Int) :
    EthStateDB :=
  st.update a (fun acc => { acc with balance := acc.balance + amt })

/-- Model of `StateDB.SetCode`. -/
def EthStateDB.setCode (st : EthStateDB) (a : Address) (c : Bytes) :
    EthStateDB :=
  st.update a (fun acc => { acc with code := c })

/-- Model of `StateDB.SetState`. -/
def EthStateDB.setState (st : EthStateDB) (a : Address) (k v : Hash) :
    EthStateDB :=
  st.update a (fun acc =>
    { acc with storage := assocUpdate k (fun _ => v) 0 acc.storage })

/-- Model of `StateDB.Copy`: a deep, independent copy — in the embedding simply
the value itself, since values never alias. -/
def EthStateDB.copy (st : EthStateDB) : EthStateDB := st

/-- Modelled from the spec: the Write-Ahead State (its source file is
not under `src/`).  Only what the coordinator touches is kept: the root
it was (re)initialised from and its own StateDB
(`s.was.ethState` in `Call` and `CreateAccounts`). -/
structure WriteAheadState where
  root : Hash
  ethState : EthStateDB
  deriving DecidableEq, Repr

/-- Modelled from the spec: the transaction pool (its source file is not
under `src/`): the root it was (re)initialised from and its own StateDB
(`s.txPool.ethState` in `GetPoolNonce`). -/
structure TxPool where
  root : Hash
  ethState : EthStateDB
  deriving DecidableEq, Repr

/-- Model of `NewTxPool(ethState.Copy(), ...)`: a pool over the given StateDB
(construction cannot fail in the code). -/
def TxPool.new (st : EthStateDB) : TxPool := ⟨st.root, st⟩

/-- An Ethereum transaction at the interface boundary (its fields are
irrelevant to the coordinator, which only forwards it). -/
structure Tx where
  bytes : Bytes
  deriving DecidableEq, Repr

/-- A transaction receipt at the interface boundary. -/
structure Receipt where
  bytes : Bytes
  deriving DecidableEq, Repr

/-- Model of `ethTypes.Message` as consumed by `Call` (remaining fields are
irrelevant to the coordinator). -/
structure Message where
  sender : Address
  gasPrice : Int
  payload : Bytes
  deriving DecidableEq, Repr

/-- The coordinator's state (`State` in `state.go`); configuration
fields (signer, chainConfig, vmConfig, logger) carry no state and are
omitted. -/
structure State where
  db : Store
  ethState : EthStateDB
  was : WriteAheadState
  txPool : TxPool
  deriving DecidableEq, Repr

/-- Behaviour of the external collaborators: go-ethereum's StateDB
constructor, EVM and RLP codec, and the repository's WriteAheadState and
TxPool (whose sources are not under `src/`, so their operations are
modelled from the spec as unconstrained capabilities). -/
structure Env where
  /-- accounts reachable from a root in the trie database
  (`ethState.New` / `Reset` load them) -/
  accountsAt : Hash → List (Address × Account)
  /-- failure behaviour of `ethState.New(root, ·)` and
  `StateDB.Reset(root)` -/
  ethResetErr : Hash → Option Err
  /-- failure behaviour of `NewWriteAheadState(·, root, ...)` and
  `was.Reset(root)`; modelled from the spec: `Reset(root)` discards the
  in-memory WAS and reinitialises it fresh from the given root -/
  wasResetErr : Hash → Option Err
  /-- Behaviour of `was.Commit()`, modelled from the spec: finalizes the applied
  transactions into the durable store and returns the new root (with an
  error on durable write failure), Go style as a pair -/
  wasCommit : WriteAheadState → Hash × Option Err
  /-- failure behaviour of `txPool.Reset(root)`; modelled from the
  spec: discards all speculative bookkeeping and reinitialises from the
  given root -/
  poolResetErr : Hash → Option Err
  /-- Behaviour of `core.ApplyMessage` on an EVM over the given StateDB: output
  bytes, the mutated StateDB, and an optional execution error -/
  applyMessage : EthStateDB → Message → Bytes × EthStateDB × Option Err
  /-- Behaviour of `rlp.Decode` of a transaction -/
  decodeTx : Bytes → Except Err Tx
  /-- Behaviour of `was.ApplyTransaction(t, txIndex, blockHash)`, modelled from the
  spec: executes the transaction against the WAS view in order -/
  wasApply : WriteAheadState → Tx → Nat → Hash → Option Err × WriteAheadState
  /-- Behaviour of `rlp.DecodeBytes` of a stored receipt -/
  decodeReceipt : Bytes → Except Err Receipt

/-- A fresh StateDB opened at `root` (`ethState.New(root, db)` on
success). -/
def Env.stateAt (env : Env) (root : Hash) : EthStateDB :=
  ⟨root, env.accountsAt root⟩

/-- A fresh WriteAheadState at `root` (`NewWriteAheadState` /
`was.Reset(root)` on success). -/
def Env.wasAt (env : Env) (root : Hash) : WriteAheadState :=
  ⟨root, env.stateAt root⟩

/-- A fresh TxPool at `root` (`txPool.Reset(root)` on success). -/
def Env.poolAt (env : Env) (root : Hash) : TxPool :=
  ⟨root, env.stateAt root⟩

/-- The root `InitState` computes (`state.go` lines 78-85): the value
under the `"root"` key when the read yields non-empty data, the zero
hash otherwise; the read error is discarded (`data, _ := s.db.Get`). -/
def initStateRoot (db : Store) : Hash :=
  let data := (db.get rootKey).1
  if data.length ≠ 0 then bytesToHash data else 0

/-- Translation of `State.InitState` (`state.go` lines 76-103): reads the stored root,
opens the committed StateDB at it, creates the WAS at it, and creates
the pool over a copy of the committed StateDB. -/
def State.initState (env : Env) (db : Store) : Except Err State :=
  let rootHash := initStateRoot db
  match env.ethResetErr rootHash with
  | some e => Except.error e
  | none =>
    let eth := env.stateAt rootHash
    match env.wasResetErr rootHash with
    | some e => Except.error e
    | none =>
      Except.ok ⟨db, eth, env.wasAt rootHash, TxPool.new eth.copy⟩

/-- Events recording which collaborator calls `Commit` performs, in
order. -/
inductive Ev where
  | wasCommitCall
  | ethResetCall (root : Hash)
  | wasResetCall (root : Hash)
  | poolResetCall (root : Hash)
  deriving DecidableEq, Repr

/-- Translation of `State.Commit` (`state.go` lines 107-137): commit the WAS; on
success reset the committed StateDB, the WAS and the pool to the new
root, returning at the first error.  The result is the Go return pair,
the coordinator state afterwards, and the trace of collaborator calls. -/
def State.commit (env : Env) (s : State) :
    (Hash × Option Err) × State × List Ev :=
  match env.wasCommit s.was with
  | (root, some e) => ((root, some e), s, [Ev.wasCommitCall])
  | (root, none) =>
    match env.ethResetErr root with
    | some e =>
        ((root, some e), s, [Ev.wasCommitCall, Ev.ethResetCall root])
    | none =>
      let s1 : State := { s with ethState := env.stateAt root }
      match env.wasResetErr root with
      | some e =>
          ((root, some e), s1,
            [Ev.wasCommitCall, Ev.ethResetCall root, Ev.wasResetCall root])
      | none =>
        let s2 : State := { s1 with was := env.wasAt root }
        match env.poolResetErr root with
        | some e =>
            ((root, some e), s2,
              [Ev.wasCommitCall, Ev.ethResetCall root, Ev.wasResetCall root,
                Ev.poolResetCall root])
        | none =>
            ((root, none), { s2 with txPool := env.poolAt root },
              [Ev.wasCommitCall, Ev.ethResetCall root, Ev.wasResetCall root,
                Ev.poolResetCall root])

/-- Translation of `State.Call` (`state.go` lines 143-166): execute the message on an
EVM over a copy of the WAS's StateDB; return the output, or the
execution error with nil output.  The coordinator state is returned
unchanged, as the method mutates none of its receiver's fields. -/
def State.call (env : Env) (s : State) (msg : Message) :
    (Bytes × Option Err) × State :=
  let r := env.applyMessage s.was.ethState.copy msg
  match r.2.2 with
  | some e => (([], some e), s)
  | none => ((r.1, none), s)

/-- Translation of `State.ApplyTransaction` (`state.go` lines 178-189): RLP-decode the
bytes; on failure return the decode error, otherwise forward the
decoded transaction, index and block hash to the WAS. -/
def State.applyTransaction (env : Env) (s : State) (txBytes : Bytes)
    (txIndex : Nat) (blockHash : Hash) : Option Err × State :=
  match env.decodeTx txBytes with
  | Except.error e => (some e, s)
  | Except.ok t =>
    let r := env.wasApply s.was t txIndex blockHash
    (r.1, { s with was := r.2 })

/-- Translation of `State.GetBalance` (`state.go` lines 209-211). -/
def State.getBalance (s : State) (addr : Address) : Int :=
  s.ethState.getBalance addr

/-- Translation of `State.GetNonce` (`state.go` lines 214-216). -/
def State.getNonce (s : State) (addr : Address) : Nat :=
  s.ethState.getNonce addr

/-- Translation of `State.GetPoolNonce` (`state.go` lines 219-221). -/
def State.getPoolNonce (s : State) (addr : Address) : Nat :=
  s.txPool.ethState.getNonce addr

/-- Translation of `State.GetTransaction` (`state.go` lines 224-238): read the store at
the hash's bytes, then RLP-decode. -/
def State.getTransaction (env : Env) (s : State) (hash : Hash) :
    Except Err Tx :=
  let r := s.db.get (hashToBytes hash)
  match r.2 with
  | some e => Except.error e
  | none => env.decodeTx r.1

/-- Translation of `State.GetReceipt` (`state.go` lines 242-255): read the store at the
receipts prefix followed by the hash's bytes, then RLP-decode. -/
def State.getReceipt (env : Env) (s : State) (txHash : Hash) :
    Except Err Receipt :=
  let r := s.db.get ( receiptsPrefix ++ hashToBytes txHash)
  match r.2 with
  | some e => Except.error e
  | none => env.decodeReceipt r.1

/-- Value of a hexadecimal digit character, if it is one. -/
def hexDigitVal (c : Char) : Option Nat :=
  if '0' ≤ c ∧ c ≤ '9' then some (c.toNat - '0'.toNat)
  else if 'a' ≤ c ∧ c ≤ 'f' then some (c.toNat - 'a'.toNat + 10)
  else if 'A' ≤ c ∧ c ≤ 'F' then some (c.toNat - 'A'.toNat + 10)
  else none

/-- Decode pairs of hex digits into bytes, stopping at the first
invalid pair (the library discards the decode error and keeps what was
decoded). -/
def hexPairs : List Char → Bytes
  | c1 :: c2 :: rest =>
    match hexDigitVal c1, hexDigitVal c2 with
    | some h, some l => (h * 16 + l) :: hexPairs rest
    | _, _ => []
  | _ => []

/-- Model of `common.Hex2Bytes` at the interface boundary. -/
def hex2Bytes (s : String) : Bytes := hexPairs s.data

/-- Model of `common.FromHex` at the interface boundary: strip an optional `0x`
prefix, left-pad to an even number of digits, and hex-decode. -/
def fromHex (s : String) : Bytes :=
  let body : List Char :=
    match s.data with
    | '0' :: 'x' :: rest => rest
    | '0' :: 'X' :: rest => rest
    | cs => cs
  hexPairs (if body.length % 2 = 1 then '0' :: body else body)

/-- Model of `common.HexToAddress`: the last 20 bytes of the hex decoding, as a
numeric value. -/
def hexToAddress (s : String) : Address :=
  ((fromHex s).foldl (fun a x => a * 256 + x) 0) % 2 ^ 160

/-- Model of `common.HexToHash`: the last 32 bytes of the hex decoding, as a
numeric value. -/
def hexToHash (s : String) : Hash :=
  bytesToHash (fromHex s)

/-- Digit value of `c` in the given base (10 or 16), if valid. -/
def digitVal (base : Nat) (c : Char) : Option Nat :=
  match hexDigitVal c with
  | some d => if d < base then some d else none
  | none => none

/-- An unsigned digit run in the given base; fails when empty or when
any character is invalid (as `big.Int.SetString` does). -/
def parseUnsigned (base : Nat) (cs : List Char) : Option Nat :=
  match cs with
  | [] => none
  | _ => cs.foldlM (fun acc c => (digitVal base c).map (fun d => acc * base + d)) 0

/-- A digit run with an optional sign, as `big.Int.SetString` accepts. -/
def parseSigned (base : Nat) (cs : List Char) : Option Int :=
  match cs with
  | '-' :: rest => (parseUnsigned base rest).map (fun n => -(n : Int))
  | '+' :: rest => (parseUnsigned base rest).map (fun n => (n : Int))
  | _ => (parseUnsigned base cs).map (fun n => (n : Int))

/-- Reject parsed values of more than 256 bits, as `ParseBig256` does. -/
def capBig256 : Option Int → Option Int
  | none => none
  | some n => if n.natAbs < 2 ^ 256 then some n else none

/-- Model of `math.ParseBig256` at the interface boundary: empty string is 0; a
`0x`/`0X` prefix selects base 16, otherwise base 10; values of more
than 256 bits are rejected.  `math.MustParseBig256` panics exactly when
this returns `none`. -/
def parseBig256 (s : String) : Option Int :=
  match s.data with
  | [] => some 0
  | '0' :: 'x' :: rest => capBig256 (parseSigned 16 rest)
  | '0' :: 'X' :: rest => capBig256 (parseSigned 16 rest)
  | cs => capBig256 (parseSigned 10 cs)

/-- Modelled from the repository's `common.AccountMap` entry (its source
file is not under `src/`): the genesis description of one account, with
hex-encoded fields, as consumed by `CreateAccounts`. -/
structure GenesisAccount where
  balance : String
  code : String
  storage : List (String × String)
  deriving DecidableEq, Repr

/-- The body of the `CreateAccounts` loop for one account (`state.go`
lines 193-201): add the parsed balance, set the code, set each storage
pair.  `none` models the `MustParseBig256` panic on a malformed
balance. -/
def seedAccount (st : EthStateDB) (addr : String) (acc : GenesisAccount) :
    Option EthStateDB :=
  match parseBig256 acc.balance with
  | none => none
  | some bal =>
    let address := hexToAddress addr
    let st := st.addBalance address bal
    let st := st.setCode address (hex2Bytes acc.code)
    some (acc.storage.foldl
      (fun st kv => st.setState address (hexToHash kv.1) (hexToHash kv.2)) st)

/-- Translation of `State.CreateAccounts` (`state.go` lines 192-206): seed every listed
account into the WAS's StateDB, then `Commit`, returning its error.
The account map is taken in its (Go-map) iteration order; `none` models
the process aborting on a `MustParseBig256` panic. -/
def State.createAccounts (env : Env) (s : State)
    (accounts : List (String × GenesisAccount)) :
    Option (Option Err × State) :=
  match accounts.foldlM (fun st e => seedAccount st e.1 e.2) s.was.ethState with
  | none => none
  | some st =>
    let s1 : State := { s with was := { s.was with ethState := st } }
    let r := State.commit env s1
    some (r.1.2, r.2.1)

/-- Modelled from the spec: the routing the spec prescribes for `Call`
("routes read calls to Committed State", "internally operates on a
private copy") — the same execution as `State.call` but over a copy of
the committed StateDB instead of the WAS's. -/
def callOnCommittedSpec (env : Env) (s : State) (msg : Message) :
    (Bytes × Option Err) × State :=
  let r := env.applyMessage s.ethState.copy msg
  match r.2.2 with
  | some e => (([], some e), s)
  | none => ((r.1, none), s)

/-- The routing `Call` actually performs, written from the amended
claim's words: execute the message on a private copy of the WAS's
StateDB, discard the mutated copy, and return the output or the
execution error. -/
def callOnWASSpec (env : Env) (s : State) (msg : Message) :
    (Bytes × Option Err) × State :=
  let r := env.applyMessage s.was.ethState.copy msg
  ((if (r.2.2).isSome then [] else r.1, r.2.2), s)

/-! ### Concrete instances used to witness the theorems -/

/-- A concrete account database: root 5 holds one account. -/
def accountsA (r : Hash) : List (Address × Account) :=
  if r = 5 then [(1, ⟨100, 2, [], []⟩)] else []

/-- A concrete environment whose collaborators all succeed;
`was.Commit` yields root 5. -/
def envA : Env where
  accountsAt := accountsA
  ethResetErr := fun _ => none
  wasResetErr := fun _ => none
  wasCommit := fun _ => (5, none)
  poolResetErr := fun _ => none
  applyMessage := fun st _ => ([st.getNonce 1], st.addBalance 1 1, none)
  decodeTx := fun b =>
    if b = [1] then Except.ok ⟨[1]⟩ else Except.error Err.decodeError
  wasApply := fun was _ _ _ =>
    (none, { was with ethState := was.ethState.addBalance 9 1 })
  decodeReceipt := fun b =>
    if b = [2] then Except.ok ⟨[2]⟩ else Except.error Err.decodeError

/-- Like `envA`, but `was.Commit` fails. -/
def envB : Env :=
  { envA with wasCommit := fun _ => (5, some Err.ioError) }

/-- Like `envA`, but resetting the committed StateDB at root 5 fails. -/
def envC : Env :=
  { envA with ethResetErr := fun r => if r = 5 then some Err.ioError else none }

/-- Like `envA`, but resetting the WAS at root 5 fails. -/
def envD : Env :=
  { envA with wasResetErr := fun r => if r = 5 then some Err.ioError else none }

/-- Like `envA`, but resetting the pool at root 5 fails. -/
def envE : Env :=
  { envA with poolResetErr := fun r => if r = 5 then some Err.ioError else none }

/-- A concrete coordinator state rooted at 0 with an empty store. -/
def s0 : State :=
  ⟨⟨[], []⟩, ⟨0, []⟩, ⟨0, ⟨0, []⟩⟩, ⟨0, ⟨0, []⟩⟩⟩

/-- A concrete store whose `"root"` key holds the byte 7. -/
def dbR : Store := ⟨[(rootKey, [7])], []⟩

/-- The state `InitState` builds over `dbR` with `envA`. -/
def sInit7 : State :=
  ⟨dbR, envA.stateAt 7, envA.wasAt 7, TxPool.new (envA.stateAt 7)⟩

/-- A message from address 1. -/
def m0 : Message := ⟨1, 0, []⟩

/-- A coordinator state whose committed StateDB (account 1 at nonce 2)
and WAS StateDB (account 1 at nonce 9) differ. -/
def sDiff : State :=
  ⟨⟨[], []⟩, ⟨0, [(1, ⟨100, 2, [], []⟩)]⟩,
    ⟨0, ⟨0, [(1, ⟨100, 9, [], []⟩)]⟩⟩, ⟨0, ⟨0, []⟩⟩⟩

/-- Like `envA`, but opening a StateDB at any root fails. -/
def envF : Env :=
  { envA with ethResetErr := fun _ => some (Err.other 3) }

/-- Like `envA`, but creating a WriteAheadState at any root fails. -/
def envG : Env :=
  { envA with wasResetErr := fun _ => some (Err.other 4) }

/-- A store whose root-key read fails with an I/O error. -/
def dbF : Store := ⟨[], [rootKey]⟩

/-- A store failing on the root key, the key of transaction hash 3 and
the receipt key of transaction hash 3. -/
def dbF2 : Store :=
  ⟨[], [rootKey, hashToBytes 3, receiptsPrefix ++ hashToBytes 3]⟩

/-- State `s0` over the failing store `dbF2`. -/
def sF : State := { s0 with db := dbF2 }

/-- A store holding a serialized transaction under the bytes of hash 3
and a serialized receipt under its prefixed key. -/
def dbT : Store :=
  ⟨[(hashToBytes 3, [1]), ( receiptsPrefix ++ hashToBytes 3, [2])], []⟩

/-- State `s0` over the populated store `dbT`. -/
def sT : State := { s0 with db := dbT }

/-- A concrete genesis account: balance 100, code `ff`, one storage
pair. -/
def acc1 : GenesisAccount := ⟨"100", "ff", [("02", "0x03")]⟩

/-! ### Helper lemmas -/

/-- A successful `Commit` came from a successful `was.Commit` at the
returned root, swapped all three states to that root, and performed the
four collaborator calls in order. -/
theorem State.commit_ok (env : Env) (s s' : State) (r : Hash) (tr : List Ev)
    (h : State.commit env s = ((r, none), s', tr)) :
    env.wasCommit s.was = (r, none) ∧
    s' = { s with ethState := env.stateAt r, was := env.wasAt r,
                  txPool := env.poolAt r } ∧
    tr = [Ev.wasCommitCall, Ev.ethResetCall r, Ev.wasResetCall r,
          Ev.poolResetCall r] := by
  rcases hw : env.wasCommit s.was with ⟨root, err⟩
  cases err <;>
    cases hre : env.ethResetErr root <;>
      cases hrw : env.wasResetErr root <;>
        cases hrp : env.poolResetErr root <;>
          simp_all [State.commit]
  obtain ⟨h1, h2, h3⟩ := h
  subst h1
  exact ⟨h2.symm, h3.symm⟩

/-- A successful `InitState` produced exactly the fresh committed
StateDB, WAS and pool at the stored root. -/
theorem State.initState_ok (env : Env) (db : Store) (s : State)
    (h : State.initState env db = Except.ok s) :
    s = ⟨db, env.stateAt (initStateRoot db), env.wasAt (initStateRoot db),
         TxPool.new (env.stateAt (initStateRoot db))⟩ := by
  cases hre : env.ethResetErr (initStateRoot db) <;>
    cases hrw : env.wasResetErr (initStateRoot db) <;>
      simp_all [State.initState, EthStateDB.copy]

/-- Looking up after an update: the updated key holds the rewritten
value, every other key is untouched. -/
theorem assocFind_assocUpdate {α β : Type} [DecidableEq α]
    (k k' : α) (f : β → β) (dflt : β) (l : List (α × β)) :
    assocFind k' (assocUpdate k f dflt l) =
      if k' = k then some (f ((assocFind k l).getD dflt))
      else assocFind k' l := by
  induction l with
  | nil =>
    by_cases h : k' = k
    · simp [assocFind, assocUpdate, h]
    · simp [assocFind, assocUpdate, h, Ne.symm h]
  | cons e rest ih =>
    by_cases he : e.1 = k
    · by_cases hk : k' = k
      · simp_all [assocFind, assocUpdate]
      · simp_all [assocFind, assocUpdate, Ne.symm hk]
    · by_cases hk : k' = k <;> simp_all [assocFind, assocUpdate]

/-- The account view after `update`. -/
theorem account_update (st : EthStateDB) (a b : Address)
    (f : Account → Account) :
    (st.update a f).account b =
      if b = a then f (st.account a) else st.account b := by
  unfold EthStateDB.update EthStateDB.account
  rw [assocFind_assocUpdate]
  by_cases h : b = a <;> simp [h]

/-- Lemma: `AddBalance` adds to the target's balance and no other. -/
theorem getBalance_addBalance (st : EthStateDB) (a b : Address) (amt : Int) :
    (st.addBalance a amt).getBalance b =
      if b = a then st.getBalance b + amt else st.getBalance b := by
  unfold EthStateDB.addBalance EthStateDB.getBalance
  rw [account_update]
  by_cases h : b = a <;> simp [h]

/-- Lemma: `SetCode` leaves every balance unchanged. -/
theorem getBalance_setCode (st : EthStateDB) (a b : Address) (c : Bytes) :
    (st.setCode a c).getBalance b = st.getBalance b := by
  unfold EthStateDB.setCode EthStateDB.getBalance
  rw [account_update]
  by_cases h : b = a <;> simp [h]

/-- Lemma: `SetState` leaves every balance unchanged. -/
theorem getBalance_setState (st : EthStateDB) (a b : Address) (k v : Hash) :
    (st.setState a k v).getBalance b = st.getBalance b := by
  unfold EthStateDB.setState EthStateDB.getBalance
  rw [account_update]
  by_cases h : b = a <;> simp [h]

/-- Lemma: `SetCode` sets the target's code and no other. -/
theorem getCode_setCode (st : EthStateDB) (a b : Address) (c : Bytes) :
    (st.setCode a c).getCode b = if b = a then c else st.getCode b := by
  unfold EthStateDB.setCode EthStateDB.getCode
  rw [account_update]
  by_cases h : b = a <;> simp [h]

/-- Lemma: `SetState` leaves every code unchanged. -/
theorem getCode_setState (st : EthStateDB) (a b : Address) (k v : Hash) :
    (st.setState a k v).getCode b = st.getCode b := by
  unfold EthStateDB.setState EthStateDB.getCode
  rw [account_update]
  by_cases h : b = a <;> simp [h]

/-- Lemma: `SetState` sets the target's storage slot and no other slot of that
account. -/
theorem getState_setState (st : EthStateDB) (a : Address) (k v k' : Hash) :
    (st.setState a k v).getState a k' =
      if k' = k then v else st.getState a k' := by
  unfold EthStateDB.setState EthStateDB.getState
  rw [account_update, if_pos rfl, assocFind_assocUpdate]
  by_cases h : k' = k <;> simp [h]

/-- Seeding a storage list leaves every balance unchanged. -/
theorem getBalance_seedStorage (a b : Address) (l : List (String × String))
    (st : EthStateDB) :
    (l.foldl (fun st kv =>
        st.setState a (hexToHash kv.1) (hexToHash kv.2)) st).getBalance b =
      st.getBalance b := by
  induction l generalizing st with
  | nil => rfl
  | cons e rest ih =>
    simp only [List.foldl]
    rw [ih, getBalance_setState]

/-- Seeding a storage list leaves every code unchanged. -/
theorem getCode_seedStorage (a b : Address) (l : List (String × String))
    (st : EthStateDB) :
    (l.foldl (fun st kv =>
        st.setState a (hexToHash kv.1) (hexToHash kv.2)) st).getCode b =
      st.getCode b := by
  induction l generalizing st with
  | nil => rfl
  | cons e rest ih =>
    simp only [List.foldl]
    rw [ih, getCode_setState]

/-- Seeding a storage list leaves slots outside its keys unchanged. -/
theorem getState_seedStorage_not_mem (a : Address)
    (l : List (String × String)) (st : EthStateDB) (k : Hash)
    (h : k ∉ l.map (fun kv => hexToHash kv.1)) :
    (l.foldl (fun st kv =>
        st.setState a (hexToHash kv.1) (hexToHash kv.2)) st).getState a k =
      st.getState a k := by
  induction l generalizing st with
  | nil => rfl
  | cons e rest ih =>
    simp only [List.map_cons, List.mem_cons, not_or] at h
    simp only [List.foldl]
    rw [ih _ h.2, getState_setState]
    simp [h.1]

/-- Seeding a storage list with pairwise distinct keys writes every
listed pair. -/
theorem getState_seedStorage_mem (a : Address) (l : List (String × String))
    (st : EthStateDB)
    (hnd : (l.map (fun kv => hexToHash kv.1)).Nodup) :
    ∀ kv ∈ l,
      (l.foldl (fun st kv =>
          st.setState a (hexToHash kv.1) (hexToHash kv.2)) st).getState a
        (hexToHash kv.1) = hexToHash kv.2 := by
  induction l generalizing st with
  | nil => intro kv hkv; cases hkv
  | cons e rest ih =>
    intro kv hkv
    simp only [List.map_cons, List.nodup_cons] at hnd
    rcases List.mem_cons.mp hkv with h | h
    · subst h
      simp only [List.foldl]
      rw [getState_seedStorage_not_mem _ _ _ _ hnd.1, getState_setState]
      simp
    · exact ih _ hnd.2 kv h

/-! ### Claims -/

/-- C1: `Commit` first calls `was.Commit`; if that fails, its error is
returned and no reset step is performed; on success it resets the
committed StateDB, then the WAS, then the pool, all to the returned
root, and returns that root with no error. -/
theorem commit_orchestration (env : Env) (s : State) (r : Hash) (e : Err) :
    (env.wasCommit s.was = (r, some e) →
      State.commit env s = ((r, some e), s, [Ev.wasCommitCall])) ∧
    (env.wasCommit s.was = (r, none) → env.ethResetErr r = none →
      env.wasResetErr r = none → env.poolResetErr r = none →
      State.commit env s =
        ((r, none),
          { s with ethState := env.stateAt r, was := env.wasAt r,
                   txPool := env.poolAt r },
          [Ev.wasCommitCall, Ev.ethResetCall r, Ev.wasResetCall r,
            Ev.poolResetCall r])) := by
  constructor
  · intro h
    simp [State.commit, h]
  · intro h h1 h2 h3
    simp [State.commit, h, h1, h2, h3]

/-- C2: after a successful `InitState` the committed StateDB, the WAS
and the pool are all rooted at one root — the stored root when the
`"root"` key read yields data, the zero hash otherwise — and after a
successful `Commit` all three are rooted at the root `was.Commit`
returned. -/
theorem three_states_share_root (env : Env) (db : Store)
    (s1 s2 s' : State) (r : Hash) (tr : List Ev) :
    (State.initState env db = Except.ok s1 →
      s1.ethState.root = initStateRoot db ∧ s1.was.root = initStateRoot db ∧
      s1.txPool.root = initStateRoot db ∧
      ((db.get rootKey).1.length ≠ 0 →
        initStateRoot db = bytesToHash (db.get rootKey).1) ∧
      ((db.get rootKey).1.length = 0 → initStateRoot db = 0)) ∧
    (State.commit env s2 = ((r, none), s', tr) →
      env.wasCommit s2.was = (r, none) ∧
      s'.ethState.root = r ∧ s'.was.root = r ∧ s'.txPool.root = r) := by
  constructor
  · intro h
    have hs := State.initState_ok env db s1 h
    subst hs
    refine ⟨rfl, rfl, rfl, fun h0 => ?_, fun h0 => ?_⟩
    · simp [initStateRoot, h0]
    · simp [initStateRoot, h0]
  · intro h
    obtain ⟨hw, hs, ht⟩ := State.commit_ok env s2 s' r tr h
    subst hs
    exact ⟨hw, rfl, rfl, rfl⟩

/-- Witness for C2: a store holding root byte 7, and a successful
commit advancing to root 5. -/
theorem three_states_share_root_witness :
    (sInit7.ethState.root = initStateRoot dbR ∧
     sInit7.was.root = initStateRoot dbR ∧
     sInit7.txPool.root = initStateRoot dbR ∧
     ((dbR.get rootKey).1.length ≠ 0 →
       initStateRoot dbR = bytesToHash (dbR.get rootKey).1) ∧
     ((dbR.get rootKey).1.length = 0 → initStateRoot dbR = 0)) ∧
    (envA.wasCommit s0.was = (5, none) ∧
     (State.commit envA s0).2.1.ethState.root = 5 ∧
     (State.commit envA s0).2.1.was.root = 5 ∧
     (State.commit envA s0).2.1.txPool.root = 5) :=
  ⟨(three_states_share_root envA dbR sInit7 s0 (State.commit envA s0).2.1 5
      (State.commit envA s0).2.2).1 (by rfl),
   (three_states_share_root envA dbR sInit7 s0 (State.commit envA s0).2.1 5
      (State.commit envA s0).2.2).2 (by rfl)⟩

/-- C4 counterexample: with an environment whose message execution
reports the nonce of account 1 from the StateDB it is given, and a
state whose committed and WAS views disagree on that nonce, `Call`
returns the WAS's value — it executes against the Write-Ahead State,
not the Committed State. -/
theorem call_routes_to_committed_counterexample :
    State.call envA sDiff m0 ≠ callOnCommittedSpec envA sDiff m0 ∧
    (State.call envA sDiff m0).1.1 = [9] ∧
    (callOnCommittedSpec envA sDiff m0).1.1 = [2] ∧
    sDiff.was.ethState.getNonce 1 = 9 ∧ sDiff.ethState.getNonce 1 = 2 := by
  refine ⟨by decide, rfl, rfl, rfl, rfl⟩

/-- C4 amended: `Call` executes the read-only message against a private
copy of the Write-Ahead State's StateDB (not the Committed State),
returning the execution output or its error. -/
theorem call_routes_to_was (env : Env) (s : State) (msg : Message) :
    State.call env s msg = callOnWASSpec env s msg := by
  unfold State.call callOnWASSpec
  cases h : (env.applyMessage s.was.ethState.copy msg).2.2 <;> simp [h]

/-- C5: `Call` leaves every coordinator-owned state unchanged: the
returned coordinator state is the input state, so every balance, nonce
and pool nonce, and the whole WAS, read after the call equal their
values before it. -/
theorem call_has_no_observable_effect (env : Env) (s : State)
    (msg : Message) (addr : Address) :
    (State.call env s msg).2 = s ∧
    ((State.call env s msg).2).getBalance addr = s.getBalance addr ∧
    ((State.call env s msg).2).getNonce addr = s.getNonce addr ∧
    ((State.call env s msg).2).getPoolNonce addr = s.getPoolNonce addr ∧
    ((State.call env s msg).2).was = s.was := by
  have h2 : (State.call env s msg).2 = s := by
    unfold State.call
    cases h : (env.applyMessage s.was.ethState.copy msg).2.2 <;> simp [h]
  exact ⟨h2, by rw [h2], by rw [h2], by rw [h2], by rw [h2]⟩

/-- C3 counterexample: with a successful `was.Commit` to root 5 and a
failing reset of the committed StateDB, `Commit` returns that reset
error as its result — the reset is attempted once (a single reset event
in the trace) and not retried, refuting the claim that a reset failure
is not returned as a terminal failure. -/
theorem commit_retries_reset_counterexample :
    State.commit envC s0 =
      ((5, some Err.ioError), s0, [Ev.wasCommitCall, Ev.ethResetCall 5]) := by
  rfl

/-- C3 amended: if any reset step fails after `was.Commit` has
succeeded, `Commit` returns the already-advanced root together with
that reset error; the failing reset is attempted exactly once and the
remaining reset steps are skipped. -/
theorem commit_reset_failure_is_returned (env : Env) (s : State)
    (r : Hash) (e : Err) (h : env.wasCommit s.was = (r, none)) :
    (env.ethResetErr r = some e →
      State.commit env s =
        ((r, some e), s, [Ev.wasCommitCall, Ev.ethResetCall r])) ∧
    (env.ethResetErr r = none → env.wasResetErr r = some e →
      State.commit env s =
        ((r, some e), { s with ethState := env.stateAt r },
          [Ev.wasCommitCall, Ev.ethResetCall r, Ev.wasResetCall r])) ∧
    (env.ethResetErr r = none → env.wasResetErr r = none →
      env.poolResetErr r = some e →
      State.commit env s =
        ((r, some e),
          { s with ethState := env.stateAt r, was := env.wasAt r },
          [Ev.wasCommitCall, Ev.ethResetCall r, Ev.wasResetCall r,
            Ev.poolResetCall r])) := by
  refine ⟨fun h1 => ?_, fun h1 h2 => ?_, fun h1 h2 h3 => ?_⟩ <;>
    simp [State.commit, h, *]

/-- Witness for the amended C3: each of the three reset steps failing
at a concrete input. -/
theorem commit_reset_failure_is_returned_witness :
    State.commit envC s0 =
      ((5, some Err.ioError), s0, [Ev.wasCommitCall, Ev.ethResetCall 5]) ∧
    State.commit envD s0 =
      ((5, some Err.ioError), { s0 with ethState := envD.stateAt 5 },
        [Ev.wasCommitCall, Ev.ethResetCall 5, Ev.wasResetCall 5]) ∧
    State.commit envE s0 =
      ((5, some Err.ioError),
        { s0 with ethState := envE.stateAt 5, was := envE.wasAt 5 },
        [Ev.wasCommitCall, Ev.ethResetCall 5, Ev.wasResetCall 5,
          Ev.poolResetCall 5]) :=
  ⟨(commit_reset_failure_is_returned envC s0 5 Err.ioError rfl).1 rfl,
   (commit_reset_failure_is_returned envD s0 5 Err.ioError rfl).2.1 rfl rfl,
   (commit_reset_failure_is_returned envE s0 5 Err.ioError rfl).2.2 rfl rfl rfl⟩

/-- Witness for C1: both branches at concrete inputs. -/
theorem commit_orchestration_witness :
    State.commit envA s0 =
      ((5, none),
        { s0 with ethState := envA.stateAt 5, was := envA.wasAt 5,
                  txPool := envA.poolAt 5 },
        [Ev.wasCommitCall, Ev.ethResetCall 5, Ev.wasResetCall 5,
          Ev.poolResetCall 5]) ∧
    State.commit envB s0 = ((5, some Err.ioError), s0, [Ev.wasCommitCall]) :=
  ⟨(commit_orchestration envA s0 5 Err.ioError).2 rfl rfl rfl rfl,
   (commit_orchestration envB s0 5 Err.ioError).1 rfl⟩

/-- C6: `ApplyTransaction` returns the decode error and leaves the
coordinator (in particular the WAS) untouched when RLP decoding fails;
when decoding succeeds it forwards exactly the decoded transaction, the
given index and the given block hash to the WAS and returns its
result. -/
theorem applyTransaction_decodes_then_forwards (env : Env) (s : State)
    (txBytes : Bytes) (txIndex : Nat) (blockHash : Hash) (e : Err) (t : Tx) :
    (env.decodeTx txBytes = Except.error e →
      State.applyTransaction env s txBytes txIndex blockHash = (some e, s)) ∧
    (env.decodeTx txBytes = Except.ok t →
      State.applyTransaction env s txBytes txIndex blockHash =
        ((env.wasApply s.was t txIndex blockHash).1,
          { s with was := (env.wasApply s.was t txIndex blockHash).2 })) := by
  constructor
  · intro h
    simp [State.applyTransaction, h]
  · intro h
    simp [State.applyTransaction, h]

/-- Witness for C6: malformed bytes `[2]` are rejected with the WAS
untouched; well-formed bytes `[1]` are forwarded to the WAS. -/
theorem applyTransaction_decodes_then_forwards_witness :
    State.applyTransaction envA s0 [2] 0 0 = (some Err.decodeError, s0) ∧
    State.applyTransaction envA s0 [1] 0 0 =
      ((envA.wasApply s0.was ⟨[1]⟩ 0 0).1,
        { s0 with was := (envA.wasApply s0.was ⟨[1]⟩ 0 0).2 }) :=
  ⟨(applyTransaction_decodes_then_forwards envA s0 [2] 0 0 Err.decodeError
      ⟨[1]⟩).1 rfl,
   (applyTransaction_decodes_then_forwards envA s0 [1] 0 0 Err.decodeError
      ⟨[1]⟩).2 rfl⟩

/-- C7 counterexample: with a store whose root-key read fails with an
I/O error, `InitState` nevertheless succeeds — that store read failure
during initialization is discarded (`data, _ := s.db.Get(rootKey)`),
not propagated to the caller. -/
theorem store_errors_never_swallowed_counterexample :
    (dbF.get rootKey).2 = some Err.ioError ∧
    State.initState envA dbF =
      Except.ok ⟨dbF, envA.stateAt 0, envA.wasAt 0,
        TxPool.new (envA.stateAt 0)⟩ :=
  ⟨rfl, rfl⟩

/-- C7 amended: store and collaborator failures are propagated by the
lookups (`GetTransaction`, `GetReceipt`), by `Commit` (a failing
`was.Commit`) and by `InitState` (failing StateDB or WAS construction)
— except the root-key read in `InitState`, whose store error is
discarded and treated as an absent root (the zero root is used). -/
theorem store_errors_propagate_except_root_read (env : Env) (s : State)
    (db : Store) (h1 h2 : Hash) (r : Hash) (e : Err) :
    ((s.db.get (hashToBytes h1)).2 = some e →
      State.getTransaction env s h1 = Except.error e) ∧
    ((s.db.get ( receiptsPrefix ++ hashToBytes h2)).2 = some e →
      State.getReceipt env s h2 = Except.error e) ∧
    (env.ethResetErr (initStateRoot db) = some e →
      State.initState env db = Except.error e) ∧
    (env.ethResetErr (initStateRoot db) = none →
      env.wasResetErr (initStateRoot db) = some e →
      State.initState env db = Except.error e) ∧
    (env.wasCommit s.was = (r, some e) →
      (State.commit env s).1.2 = some e) ∧
    (rootKey ∈ db.failing → initStateRoot db = 0) := by
  refine ⟨fun h => ?_, fun h => ?_, fun h => ?_, fun h h' => ?_,
    fun h => ?_, fun h => ?_⟩
  · simp [State.getTransaction, h]
  · simp [State.getReceipt, h]
  · simp [State.initState, h]
  · simp [State.initState, h, h']
  · simp [State.commit, h]
  · simp [initStateRoot, Store.get, h]

/-- Witness for the amended C7: each propagation case at a concrete
input. -/
theorem store_errors_propagate_except_root_read_witness :
    State.getTransaction envA sF 3 = Except.error Err.ioError ∧
    State.getReceipt envA sF 3 = Except.error Err.ioError ∧
    State.initState envF dbF2 = Except.error (Err.other 3) ∧
    State.initState envG dbF2 = Except.error (Err.other 4) ∧
    (State.commit envB s0).1.2 = some Err.ioError ∧
    initStateRoot dbF2 = 0 :=
  ⟨(store_errors_propagate_except_root_read envA sF dbF2 3 3 5
      Err.ioError).1 (by rfl),
   (store_errors_propagate_except_root_read envA sF dbF2 3 3 5
      Err.ioError).2.1 (by rfl),
   (store_errors_propagate_except_root_read envF sF dbF2 3 3 5
      (Err.other 3)).2.2.1 (by rfl),
   (store_errors_propagate_except_root_read envG sF dbF2 3 3 5
      (Err.other 4)).2.2.2.1 (by rfl) (by rfl),
   (store_errors_propagate_except_root_read envB s0 dbF2 3 3 5
      Err.ioError).2.2.2.2.1 (by rfl),
   (store_errors_propagate_except_root_read envA sF dbF2 3 3 5
      Err.ioError).2.2.2.2.2 (by decide)⟩

/-- C8: with a healthy backing store, `GetTransaction` reads the store
at the hash's bytes and `GetReceipt` at the receipts-prefixed key; an
absent key yields a not-found error, a present key yields exactly the
RLP decoding of the stored bytes — the decode error when they are
malformed, the decoded transaction or receipt otherwise. -/
theorem durable_lookups (env : Env) (s : State) (h : Hash) (v : Bytes) :
    (hashToBytes h ∉ s.db.failing →
      (s.db.lookup (hashToBytes h) = none →
        State.getTransaction env s h = Except.error Err.notFound) ∧
      (s.db.lookup (hashToBytes h) = some v →
        State.getTransaction env s h = env.decodeTx v)) ∧
    ( receiptsPrefix ++ hashToBytes h ∉ s.db.failing →
      (s.db.lookup ( receiptsPrefix ++ hashToBytes h) = none →
        State.getReceipt env s h = Except.error Err.notFound) ∧
      (s.db.lookup ( receiptsPrefix ++ hashToBytes h) = some v →
        State.getReceipt env s h = env.decodeReceipt v)) := by
  constructor
  · intro hf
    constructor
    · intro hl
      simp [State.getTransaction, Store.get, hf, hl]
    · intro hl
      simp [State.getTransaction, Store.get, hf, hl]
  · intro hf
    constructor
    · intro hl
      simp [State.getReceipt, Store.get, hf, hl]
    · intro hl
      simp [State.getReceipt, Store.get, hf, hl]

/-- Witness for C8: over `dbT`, hash 3 is present for both lookups and
hash 4 absent for both. -/
theorem durable_lookups_witness :
    State.getTransaction envA sT 3 = Except.ok ⟨[1]⟩ ∧
    State.getReceipt envA sT 3 = Except.ok ⟨[2]⟩ ∧
    State.getTransaction envA sT 4 = Except.error Err.notFound ∧
    State.getReceipt envA sT 4 = Except.error Err.notFound := by
  refine ⟨?_, ?_, ?_, ?_⟩
  · have := ((durable_lookups envA sT 3 [1]).1 (by decide)).2 (by rfl)
    simpa [envA] using this
  · have := ((durable_lookups envA sT 3 [2]).2 (by decide)).2 (by rfl)
    simpa [envA] using this
  · exact ((durable_lookups envA sT 4 []).1 (by decide)).1 (by rfl)
  · exact ((durable_lookups envA sT 4 []).2 (by decide)).1 (by rfl)

/-- A well-formed balance makes `seedAccount` succeed. -/
theorem seedAccount_isSome (st : EthStateDB) (addr : String)
    (acc : GenesisAccount) (h : (parseBig256 acc.balance).isSome) :
    (seedAccount st addr acc).isSome := by
  unfold seedAccount
  cases hp : parseBig256 acc.balance with
  | none => rw [hp] at h; cases h
  | some bal => simp

/-- When every listed balance is well-formed, the seeding fold
succeeds. -/
theorem seedFold_isSome (accounts : List (String × GenesisAccount))
    (st : EthStateDB)
    (h : ∀ e ∈ accounts, (parseBig256 e.2.balance).isSome) :
    ∃ st', List.foldlM (fun st e => seedAccount st e.1 e.2) st accounts =
      some st' := by
  induction accounts generalizing st with
  | nil => exact ⟨st, rfl⟩
  | cons e rest ih =>
    have h1 := seedAccount_isSome st e.1 e.2 (h e (List.mem_cons_self e rest))
    rcases Option.isSome_iff_exists.mp h1 with ⟨st1, hs⟩
    obtain ⟨st', hst'⟩ :=
      ih st1 (fun x hx => h x (List.mem_cons_of_mem e hx))
    exact ⟨st', by simp [List.foldlM, hs, hst']⟩

/-- C9: `CreateAccounts` seeds every listed account into the WAS's
StateDB — adding its parsed balance, setting its code, and writing
every listed storage pair — and then immediately commits, returning
`Commit`'s error. -/
theorem createAccounts_seeds_was_then_commits (env : Env) (s : State)
    (accounts : List (String × GenesisAccount)) (st0 : EthStateDB)
    (addr : String) (acc : GenesisAccount) (bal : Int) :
    ((∀ e ∈ accounts, (parseBig256 e.2.balance).isSome) →
      ∃ st, List.foldlM (fun st e => seedAccount st e.1 e.2) s.was.ethState
          accounts = some st ∧
        State.createAccounts env s accounts =
          some ((State.commit env
              { s with was := { s.was with ethState := st } }).1.2,
            (State.commit env
              { s with was := { s.was with ethState := st } }).2.1)) ∧
    (parseBig256 acc.balance = some bal →
      ∃ st', seedAccount st0 addr acc = some st' ∧
        st'.getBalance (hexToAddress addr) =
          st0.getBalance (hexToAddress addr) + bal ∧
        st'.getCode (hexToAddress addr) = hex2Bytes acc.code ∧
        ((acc.storage.map (fun kv => hexToHash kv.1)).Nodup →
          ∀ kv ∈ acc.storage,
            st'.getState (hexToAddress addr) (hexToHash kv.1) =
              hexToHash kv.2)) := by
  constructor
  · intro h
    obtain ⟨st, hst⟩ := seedFold_isSome accounts s.was.ethState h
    refine ⟨st, hst, ?_⟩
    simp [State.createAccounts, hst]
  · intro hp
    unfold seedAccount
    rw [hp]
    refine ⟨_, rfl, ?_, ?_, ?_⟩
    · rw [getBalance_seedStorage, getBalance_setCode, getBalance_addBalance]
      simp
    · rw [getCode_seedStorage, getCode_setCode]
      simp
    · intro hnd kv hkv
      exact getState_seedStorage_mem _ _ _ hnd kv hkv

/-- Witness for C9: a single genesis account with balance 100, code
`ff` and one storage pair. -/
theorem createAccounts_seeds_was_then_commits_witness :
    (∃ st, List.foldlM (fun st e => seedAccount st e.1 e.2) s0.was.ethState
        [("0x01", acc1)] = some st ∧
      State.createAccounts envA s0 [("0x01", acc1)] =
        some ((State.commit envA
            { s0 with was := { s0.was with ethState := st } }).1.2,
          (State.commit envA
            { s0 with was := { s0.was with ethState := st } }).2.1)) ∧
    (∃ st', seedAccount s0.was.ethState "0x01" acc1 = some st' ∧
      st'.getBalance (hexToAddress "0x01") =
        s0.was.ethState.getBalance (hexToAddress "0x01") + 100 ∧
      st'.getCode (hexToAddress "0x01") = hex2Bytes acc1.code ∧
      ((acc1.storage.map (fun kv => hexToHash kv.1)).Nodup →
        ∀ kv ∈ acc1.storage,
          st'.getState (hexToAddress "0x01") (hexToHash kv.1) =
            hexToHash kv.2)) :=
  ⟨(createAccounts_seeds_was_then_commits envA s0 [("0x01", acc1)]
      s0.was.ethState "0x01" acc1 100).1 (by decide),
   (createAccounts_seeds_was_then_commits envA s0 [("0x01", acc1)]
      s0.was.ethState "0x01" acc1 100).2 (by decide)⟩

/-- C10: a genesis account whose balance is not a well-formed
big-integer string (`"zz"`) makes `CreateAccounts` abort by the
`MustParseBig256` panic (modelled as `none`) instead of reporting the
problem through its error return. -/
theorem createAccounts_panics_on_malformed_balance :
    parseBig256 "zz" = none ∧
    State.createAccounts envA s0 [("0x01", ⟨"zz", "", []⟩)] = none :=
  ⟨rfl, rfl⟩

end EvmLite
